/-
Verification of the minibatch-construction pipeline of
`lib/roi_data_layer/minibatch.py` (Fast R-CNN, HICO variant).

The Python source is shallowly embedded: numpy arrays become `List`s, float
values become `ℚ` (the code only stores, compares, scales and adds values, so
rational arithmetic is exact), integer class labels become `ℤ`, and numpy
errors (broadcasting failures on out-of-range slice assignment, assertion
failures) become `Except String` results.  Randomness (`npr.choice`) is
embedded as an explicit choice-oracle parameter.
-/
import Mathlib

set_option autoImplicit false

namespace Minibatch

/-! ### Data model

`RoiRecord` embeds one entry of the roidb (spec §3): row-aligned arrays
`boxes` (N×4), `max_classes` (N), `max_overlaps` (N), `bbox_targets` (N×5
compact regression targets), plus the scalar-label array `label` used by the
multi-region (HICO) mode. -/

/-- One compact bounding-box regression target row `(class, dx, dy, dw, dh)`.
In the source this is one row of the N×5 float array `roidb['bbox_targets']`;
the class column always holds an integral class index, embedded here as `ℤ`. -/
structure CompactRow where
  cls : ℤ
  dx : ℚ
  dy : ℚ
  dw : ℚ
  dh : ℚ
  deriving Repr, DecidableEq, Inhabited

/-- One roidb record (spec §3). -/
structure RoiRecord where
  max_classes : List ℤ
  max_overlaps : List ℚ
  boxes : List (List ℚ)
  bbox_targets : List CompactRow
  label : List ℤ
  deriving Repr, DecidableEq, Inhabited

/-- The training configuration fields read by `minibatch.py` (spec §3,
"Batch configuration"). -/
structure Config where
  TRAIN_BATCH_SIZE : ℕ
  TRAIN_FG_FRACTION : ℚ
  TRAIN_FG_THRESH : ℚ
  TRAIN_BG_THRESH_HI : ℚ
  TRAIN_BG_THRESH_LO : ℚ
  TRAIN_BBOX_REG : Bool
  FLAG_HICO : Bool
  FEAT_TYPE : ℕ
  TOP_K : ℕ
  deriving Repr, DecidableEq

/-! ### numpy helpers -/

/-- numpy advanced indexing `xs[inds]`: gathers the entries of `xs` at the
given indices.  Advanced (integer-array) indexing returns a fresh copy of the
data, never a view — this matters for the frame condition on `_sample_rois`. -/
def npGather {α : Type} (xs : List α) (inds : List ℕ) (d : α) : List α :=
  inds.map (fun i => xs.getD i d)

/-- numpy slice assignment `xs[f:] = 0` on an integer vector: every entry at
position `f` or beyond is overwritten with `0`. -/
def npClampFrom (xs : List ℤ) (f : ℕ) : List ℤ :=
  xs.take f ++ List.replicate (xs.length - f) 0

/-- `np.round`: round half to even (banker's rounding), as numpy does. -/
def npRound (q : ℚ) : ℤ :=
  let f : ℤ := ⌊q⌋
  let frac : ℚ := q - f
  if frac < 1 / 2 then f
  else if 1 / 2 < frac then f + 1
  else if f % 2 = 0 then f else f + 1

/-! ### `_get_bbox_regression_labels` (minibatch.py lines 228–250)

Expands N×5 compact targets into N×4K dense targets plus loss weights.  The
source allocates two zero matrices of width `4 * num_classes` and, for every
row with class `cls > 0`, assigns the 4 deltas into the column slice
`[4*cls, 4*cls+4)`.  When `4*cls + 4 > 4*num_classes` the numpy slice clips to
fewer than 4 columns and the assignment of a length-4 vector raises a
broadcasting `ValueError`; this is embedded as an `Except.error`. -/

/-- numpy slice assignment `row[start:start+vals.length] = vals` on a row that
is long enough for the whole block. -/
def npWriteBlock (row : List ℚ) (start : ℕ) (vals : List ℚ) : List ℚ :=
  row.take start ++ vals ++ row.drop (start + vals.length)

/-- Expand one compact row into its dense target row and loss-weight row
(width `4 * num_classes`); `Except.error` when the block write would run past
the end of the row (numpy broadcasting error). -/
def expandRow (num_classes : ℕ) (r : CompactRow) : Except String (List ℚ × List ℚ) :=
  let zrow : List ℚ := List.replicate (4 * num_classes) 0
  if r.cls > 0 then
    let start : ℕ := 4 * r.cls.toNat
    if start + 4 ≤ 4 * num_classes then
      .ok (npWriteBlock zrow start [r.dx, r.dy, r.dw, r.dh],
           npWriteBlock zrow start [1, 1, 1, 1])
    else
      .error "could not broadcast: bbox block write out of bounds"
  else
    .ok (zrow, zrow)

/-- `_get_bbox_regression_labels(bbox_target_data, num_classes)`: since the
source's loop touches a distinct output row per iteration (the `np.where`
indices are strictly increasing), the matrix-level loop is equivalently
embedded row by row. -/
def get_bbox_regression_labels (bbox_target_data : List CompactRow)
    (num_classes : ℕ) : Except String (List (List ℚ) × List (List ℚ)) :=
  match bbox_target_data with
  | [] => .ok ([], [])
  | r :: rest =>
    match expandRow num_classes r, get_bbox_regression_labels rest num_classes with
    | .ok (t, w), .ok (ts, ws) => .ok (t :: ts, w :: ws)
    | .error e, _ => .error e
    | _, .error e => .error e

/-! ### `_sample_rois` (minibatch.py lines 118–163)

`npr.choice(inds, size=n, replace=False)` is embedded as an explicit oracle
`choice : List ℕ → ℕ → List ℕ`; `ChoiceOK` states the guarantees numpy gives
for `replace=False` draws (result has the requested size and its elements come
from the pool).  The source computes `fg_rois_per_this_image` before
re-binding `fg_inds` to the drawn sample, so the count is a function of the
candidate set only. -/

/-- Guarantees of `npr.choice(pool, size=n, replace=False)` used here: when
`n ≤ pool.length` the draw has exactly `n` elements and each drawn element is
a member of the pool. -/
def ChoiceOK (choice : List ℕ → ℕ → List ℕ) : Prop :=
  ∀ pool n, n ≤ pool.length →
    (choice pool n).length = n ∧ ∀ x ∈ choice pool n, x ∈ pool

/-- `np.where(overlaps >= cfg.TRAIN.FG_THRESH)[0]` (line 128): the foreground
candidate index set, in increasing order. -/
def fgInds (cfg : Config) (r : RoiRecord) : List ℕ :=
  (List.range r.max_overlaps.length).filter
    (fun i => decide (cfg.TRAIN_FG_THRESH ≤ r.max_overlaps.getD i 0))

/-- `np.where((overlaps < BG_THRESH_HI) & (overlaps >= BG_THRESH_LO))[0]`
(lines 138–139): the background candidate index set, in increasing order. -/
def bgInds (cfg : Config) (r : RoiRecord) : List ℕ :=
  (List.range r.max_overlaps.length).filter
    (fun i => decide (r.max_overlaps.getD i 0 < cfg.TRAIN_BG_THRESH_HI ∧
                      cfg.TRAIN_BG_THRESH_LO ≤ r.max_overlaps.getD i 0))

/-- `fg_rois_per_this_image = np.minimum(fg_rois_per_image, fg_inds.size)`
(line 131). -/
def fgNumThisImage (cfg : Config) (r : RoiRecord) (fg_rois_per_image : ℕ) : ℕ :=
  min fg_rois_per_image (fgInds cfg r).length

/-- Lines 133–135: when the foreground pool is non-empty, draw
`fg_rois_per_this_image` of its indices; otherwise `fg_inds` keeps its (empty)
value. -/
def fgSel (choice : List ℕ → ℕ → List ℕ) (cfg : Config) (r : RoiRecord)
    (fg_rois_per_image : ℕ) : List ℕ :=
  if 0 < (fgInds cfg r).length then
    choice (fgInds cfg r) (fgNumThisImage cfg r fg_rois_per_image)
  else fgInds cfg r

/-- `bg_rois_per_this_image = min(rois_per_image - fg_rois_per_this_image,
bg_inds.size)` (lines 142–144).  The subtraction is `ℕ`-truncated; in the
source it cannot go negative because `fg_rois_per_this_image ≤
fg_rois_per_image ≤ rois_per_image`. -/
def bgNumThisImage (cfg : Config) (r : RoiRecord)
    (fg_rois_per_image rois_per_image : ℕ) : ℕ :=
  min (rois_per_image - fgNumThisImage cfg r fg_rois_per_image)
      (bgInds cfg r).length

/-- Lines 146–148: the drawn background indices. -/
def bgSel (choice : List ℕ → ℕ → List ℕ) (cfg : Config) (r : RoiRecord)
    (fg_rois_per_image rois_per_image : ℕ) : List ℕ :=
  if 0 < (bgInds cfg r).length then
    choice (bgInds cfg r) (bgNumThisImage cfg r fg_rois_per_image rois_per_image)
  else bgInds cfg r

/-- `keep_inds = np.append(fg_inds, bg_inds)` (line 151): chosen foreground
indices first, then chosen background indices. -/
def keepInds (choice : List ℕ → ℕ → List ℕ) (cfg : Config) (r : RoiRecord)
    (fg_rois_per_image rois_per_image : ℕ) : List ℕ :=
  fgSel choice cfg r fg_rois_per_image ++
  bgSel choice cfg r fg_rois_per_image rois_per_image

/-- A numpy array variable: the values it holds, plus whether it is still a
view aliasing the roidb record field it was read from (`true`) or a fresh
array owned by the callee (`false`). -/
structure NpArr (α : Type) where
  val : List α
  aliasesRecord : Bool

/-- The tuple `_sample_rois` returns. -/
structure SampleResult where
  labels : List ℤ
  overlaps : List ℚ
  rois : List (List ℚ)
  bbox_targets : List (List ℚ)
  bbox_loss_weights : List (List ℚ)
  deriving Repr, DecidableEq, Inhabited

/-- `_sample_rois(roidb, fg_rois_per_image, rois_per_image, num_classes)`.

Returns the sampled tuple together with the post-state of the caller's
record.  Aliasing follows the numpy semantics of the source:
`labels = roidb['max_classes']` (line 123) binds a view of the record's
array; `labels = labels[keep_inds]` (line 153) re-binds the name to the fresh
copy produced by advanced indexing; `labels[fg_rois_per_this_image:] = 0`
(line 155) then writes in place into whatever array the name denotes at that
point.  The record field is updated in the post-state exactly when the
written array still aliases it. -/
def sample_rois (choice : List ℕ → ℕ → List ℕ) (cfg : Config) (r : RoiRecord)
    (fg_rois_per_image rois_per_image num_classes : ℕ) :
    Except String SampleResult × RoiRecord :=
  let keep := keepInds choice cfg r fg_rois_per_image rois_per_image
  let fgN := fgNumThisImage cfg r fg_rois_per_image
  let labels0 : NpArr ℤ := ⟨r.max_classes, true⟩
  let labels1 : NpArr ℤ := ⟨npGather labels0.val keep 0, false⟩
  let labels2 : NpArr ℤ := ⟨npClampFrom labels1.val fgN, labels1.aliasesRecord⟩
  let rPost := if labels2.aliasesRecord then { r with max_classes := labels2.val } else r
  let overlaps := npGather r.max_overlaps keep 0
  let rois := npGather r.boxes keep []
  match get_bbox_regression_labels (npGather r.bbox_targets keep default) num_classes with
  | .ok (t, w) => (.ok ⟨labels2.val, overlaps, rois, t, w⟩, rPost)
  | .error e => (.error e, rPost)

/-! ### `_get_4_side_bbox` (minibatch.py lines 165–194) -/

/-- `_get_4_side_bbox(bbox, im_width, im_height)`: derives the four context
boxes (left, top, right, bottom) of a tight box `[x1, y1, x2, y2]`. -/
def get_4_side_bbox (bbox : List ℚ) (im_width im_height : ℚ) :
    List ℚ × List ℚ × List ℚ × List ℚ :=
  let x1 := bbox.getD 0 0
  let y1 := bbox.getD 1 0
  let x2 := bbox.getD 2 0
  let y2 := bbox.getD 3 0
  let w := x2 - x1 + 1
  let h := y2 - y1 + 1
  let r := (w + h) / 2
  let bbox_l := [max (x1 - (1/2) * r) 1, y1, x2 - (1/2) * w, y2]
  let bbox_t := [x1, max (y1 - (1/2) * h) 1, x2, y2 - (1/2) * h]
  let bbox_r := [x1 + (1/2) * w, y1, min (x2 + (1/2) * r) im_width, y2]
  let bbox_b := [x1, y1 + (1/2) * h, x2, min (y2 + (1/2) * h) im_height]
  (bbox_l, bbox_t, bbox_r, bbox_b)

/-! ### `_project_im_rois` (minibatch.py lines 223–226) -/

/-- `_project_im_rois(im_rois, im_scale_factor)`: `im_rois * im_scale_factor`,
elementwise scaling of an M×4 coordinate array.  numpy `*` allocates a fresh
result array; the input is not modified. -/
def project_im_rois (im_rois : List (List ℚ)) (im_scale_factor : ℚ) :
    List (List ℚ) :=
  im_rois.map (fun row => row.map (fun c => c * im_scale_factor))

/-! ### `get_minibatch` (minibatch.py lines 16–116)

The image pixels are out of scope (spec §1: image decoding/resize are
external collaborators), so `_get_image_blob`'s outputs — the per-image scale
factors `im_scales` and original dimensions `w_org`, `h_org` — are passed in
as parameters, and the packed image tensor appears as the opaque blob
`Blob.image`.  The random scale indices only feed `_get_image_blob`, so they
do not appear.  Python `assert` failures (lines 22, 29–31, 54, 98) and numpy
errors are `Except.error`; the output dict is an association list in
insertion order. -/

/-- One side suffix of a context-mode RoI blob key. -/
inductive Side where
  | l
  | t
  | r
  | b
  deriving Repr, DecidableEq

/-- A key of the output blob dict.  `rois_k k` embeds the Python key
`'rois_%d' % k` and `rois_k_side k s` the key `'rois_%d_%s' % (k, s)`, where
`k` is the 1-based region index the source computes as `ind + 1`. -/
inductive BlobKey where
  | data
  | rois
  | labels
  | bbox_targets
  | bbox_loss_weights
  | rois_k (k : ℕ)
  | rois_k_side (k : ℕ) (s : Side)
  deriving Repr, DecidableEq

/-- A value of the output blob dict.  `image` stands for the externally
produced packed image tensor. -/
inductive Blob where
  | image
  | mat (m : List (List ℚ))
  | vec (v : List ℤ)
  deriving Repr, DecidableEq

/-- `rois_per_image = cfg.TRAIN.BATCH_SIZE / num_images` (line 25; Python 2
integer division, exact because divisibility was just asserted). -/
def rois_per_image (cfg : Config) (num_images : ℕ) : ℕ :=
  cfg.TRAIN_BATCH_SIZE / num_images

/-- `fg_rois_per_image = np.round(cfg.TRAIN.FG_FRACTION * rois_per_image)`
(line 26). -/
def fg_rois_per_image (cfg : Config) (num_images : ℕ) : ℕ :=
  (npRound (cfg.TRAIN_FG_FRACTION * (rois_per_image cfg num_images : ℕ))).toNat

/-- Lines 50–70, multi-region (HICO) branch: the per-image list `im_rois` of
region coordinate arrays, one per tensor slot.  In context sub-mode
(`FEAT_TYPE == 4`) slot `ind*4+i` holds side `i` of region `ind`
(`_get_4_side_bbox(boxes[ind,:], w, h)`); in tight sub-mode slot `ind` holds
the one-row slice `boxes[ind:ind+1,:]`. -/
def imageRegions (cfg : Config) (r : RoiRecord) (w h : ℚ) :
    List (List (List ℚ)) :=
  if cfg.FEAT_TYPE = 4 then
    (List.range cfg.TOP_K).flatMap (fun ind =>
      let s := get_4_side_bbox (r.boxes.getD ind []) w h
      [[s.1], [s.2.1], [s.2.2.1], [s.2.2.2]])
  else
    (List.range cfg.TOP_K).map (fun ind => (r.boxes.drop ind).take 1)

/-- Lines 76–80: project each of the image's region arrays by the image's
scale, prefix each row with the image's batch index, and vstack the rows onto
the corresponding accumulated tensor `rois_blob[ind]`. -/
def addRois (roisBlob : List (List (List ℚ))) (imRois : List (List (List ℚ)))
    (scale : ℚ) (imI : ℕ) : List (List (List ℚ)) :=
  (List.range imRois.length).foldl
    (fun acc ind =>
      let rois := project_im_rois (imRois.getD ind []) scale
      let rows := rois.map (fun row => (imI : ℚ) :: row)
      acc.set ind (acc.getD ind [] ++ rows))
    roisBlob

/-- The per-image body of the loop at lines 49–73: labels, bbox targets, bbox
loss weights, and the list of region coordinate arrays contributed by one
image.  Standard mode asserts `TOP_K == 1 and FEAT_TYPE == 0` (line 54) and
samples; HICO mode takes `label[0:1]` and empty regression blobs. -/
def perImage (choice : List ℕ → ℕ → List ℕ) (cfg : Config) (r : RoiRecord)
    (fgQ totQ num_classes : ℕ) (w h : ℚ) :
    Except String (List ℤ × List (List ℚ) × List (List ℚ) × List (List (List ℚ))) :=
  if cfg.FLAG_HICO then
    .ok (r.label.take 1, [], [], imageRegions cfg r w h)
  else if cfg.TOP_K = 1 ∧ cfg.FEAT_TYPE = 0 then
    match (sample_rois choice cfg r fgQ totQ num_classes).1 with
    | .ok s => .ok (s.labels, s.bbox_targets, s.bbox_loss_weights, [s.rois])
    | .error e => .error e
  else
    .error "assert TOP_K == 1 and FEAT_TYPE == 0 failed"

/-- The loop over images (lines 49–86), carrying the four accumulator blobs.
`imI` is the batch index of the head record. -/
def buildLoop (choice : List ℕ → ℕ → List ℕ) (cfg : Config)
    (fgQ totQ num_classes : ℕ) (im_scales w_org h_org : List ℚ) :
    List RoiRecord → ℕ → List (List (List ℚ)) → List ℤ →
    List (List ℚ) → List (List ℚ) →
    Except String (List (List (List ℚ)) × List ℤ × List (List ℚ) × List (List ℚ))
  | [], _, roisBlob, labelsBlob, tgtBlob, lossBlob =>
    .ok (roisBlob, labelsBlob, tgtBlob, lossBlob)
  | r :: rest, imI, roisBlob, labelsBlob, tgtBlob, lossBlob =>
    match perImage choice cfg r fgQ totQ num_classes
        (w_org.getD imI 0) (h_org.getD imI 0) with
    | .error e => .error e
    | .ok (lbls, tgts, losses, imRois) =>
      buildLoop choice cfg fgQ totQ num_classes im_scales w_org h_org rest
        (imI + 1)
        (addRois roisBlob imRois (im_scales.getD imI 1) imI)
        (labelsBlob ++ lbls) (tgtBlob ++ tgts) (lossBlob ++ losses)

/-- Lines 91–110: the output dict before the optional regression blobs.  In
HICO mode the dict is rebuilt with `data`, `labels`, and one key per region
tensor, named 1-based, with a side suffix in context sub-mode (lines
99–110). -/
def namedBlobs (cfg : Config) (roisBlob : List (List (List ℚ)))
    (labelsBlob : List ℤ) : List (BlobKey × Blob) :=
  if cfg.FLAG_HICO then
    [(BlobKey.data, Blob.image), (BlobKey.labels, Blob.vec labelsBlob)] ++
    (List.range cfg.TOP_K).flatMap (fun ind =>
      if cfg.FEAT_TYPE = 4 then
        (List.range 4).map (fun i =>
          (BlobKey.rois_k_side (ind + 1) ([Side.l, Side.t, Side.r, Side.b].getD i Side.l),
           Blob.mat (roisBlob.getD (ind * 4 + i) [])))
      else
        [(BlobKey.rois_k (ind + 1), Blob.mat (roisBlob.getD ind []))])
  else
    [(BlobKey.data, Blob.image), (BlobKey.rois, Blob.mat (roisBlob.getD 0 [])),
     (BlobKey.labels, Blob.vec labelsBlob)]

/-- `get_minibatch(roidb, num_classes)` (lines 16–116), with the outputs of
the external `_get_image_blob` passed in as `im_scales`, `w_org`, `h_org`. -/
def get_minibatch (choice : List ℕ → ℕ → List ℕ) (cfg : Config)
    (roidb : List RoiRecord) (num_classes : ℕ)
    (im_scales w_org h_org : List ℚ) : Except String (List (BlobKey × Blob)) :=
  let num_images := roidb.length
  if cfg.TRAIN_BATCH_SIZE % num_images ≠ 0 then
    .error "num_images must divide BATCH_SIZE"
  else
    let totQ := rois_per_image cfg num_images
    let fgQ := fg_rois_per_image cfg num_images
    if cfg.FLAG_HICO ∧ ¬(cfg.TRAIN_BBOX_REG = false ∧ cfg.TRAIN_FG_FRACTION = 1 ∧
        cfg.TRAIN_BATCH_SIZE = num_images) then
      .error "HICO mode assertions failed"
    else
      let nTensors := if cfg.FEAT_TYPE = 4 then cfg.TOP_K * 4 else cfg.TOP_K
      match buildLoop choice cfg fgQ totQ num_classes im_scales w_org h_org
          roidb 0 (List.replicate nTensors []) [] [] [] with
      | .error e => .error e
      | .ok (roisBlob, labelsBlob, tgtBlob, lossBlob) =>
        let blobs := namedBlobs cfg roisBlob labelsBlob
        .ok (if cfg.TRAIN_BBOX_REG then
               blobs ++ [(BlobKey.bbox_targets, Blob.mat tgtBlob),
                         (BlobKey.bbox_loss_weights, Blob.mat lossBlob)]
             else blobs)

/-! ### Statement-side definitions

`denseTargetRow` / `denseWeightRow` write out, following the spec's words
(§4.4), what one expanded row must look like: zeros everywhere except the
column block `[4*cls, 4*cls+4)`.  `sampleOk` projects the sampler's result
out of the `Except`. -/

/-- The dense target row the spec describes for one compact row: zero except
that for `cls > 0` the block `[4*cls, 4*cls+4)` holds the four deltas. -/
def denseTargetRow (num_classes : ℕ) (row : CompactRow) : List ℚ :=
  if row.cls > 0 then
    List.replicate (4 * row.cls.toNat) 0 ++ [row.dx, row.dy, row.dw, row.dh] ++
      List.replicate (4 * num_classes - (4 * row.cls.toNat + 4)) 0
  else List.replicate (4 * num_classes) 0

/-- The dense loss-weight row the spec describes: zero except that for
`cls > 0` the block `[4*cls, 4*cls+4)` is all ones. -/
def denseWeightRow (num_classes : ℕ) (row : CompactRow) : List ℚ :=
  if row.cls > 0 then
    List.replicate (4 * row.cls.toNat) 0 ++ [1, 1, 1, 1] ++
      List.replicate (4 * num_classes - (4 * row.cls.toNat + 4)) 0
  else List.replicate (4 * num_classes) 0

/-- The successful sampler result (meaningful when the sampler returns
`.ok`). -/
def sampleOk (choice : List ℕ → ℕ → List ℕ) (cfg : Config) (r : RoiRecord)
    (fg_rois_per_image rois_per_image num_classes : ℕ) : SampleResult :=
  match (sample_rois choice cfg r fg_rois_per_image rois_per_image num_classes).1 with
  | .ok s => s
  | .error _ => default

/-! ### Concrete fixtures used by the witness theorems -/

/-- A deterministic instance of the choice oracle: take the first `n` pool
elements. -/
def takeChoice : List ℕ → ℕ → List ℕ := fun pool n => pool.take n

/-- A concrete standard-mode configuration.  Overlap thresholds are stated in
tenths-of-IoU units so that every rational the witnesses must evaluate is an
integer (FG at 5 tenths, background band `[1, 5)` tenths). -/
def cfgStd : Config :=
  { TRAIN_BATCH_SIZE := 4
    TRAIN_FG_FRACTION := 1/4
    TRAIN_FG_THRESH := 5
    TRAIN_BG_THRESH_HI := 5
    TRAIN_BG_THRESH_LO := 1
    TRAIN_BBOX_REG := true
    FLAG_HICO := false
    FEAT_TYPE := 0
    TOP_K := 1 }

/-- A concrete multi-region (HICO, context sub-mode) configuration. -/
def cfgHico : Config :=
  { TRAIN_BATCH_SIZE := 1
    TRAIN_FG_FRACTION := 1
    TRAIN_FG_THRESH := 5
    TRAIN_BG_THRESH_HI := 5
    TRAIN_BG_THRESH_LO := 1
    TRAIN_BBOX_REG := false
    FLAG_HICO := true
    FEAT_TYPE := 4
    TOP_K := 2 }

/-- A concrete roidb record with two foreground and two background RoIs
(overlaps in the same tenths units as `cfgStd`). -/
def recStd : RoiRecord :=
  { max_classes := [3, 5, 2, 7]
    max_overlaps := [9, 2, 6, 1]
    boxes := [[0, 0, 10, 10], [1, 1, 2, 2], [3, 3, 4, 4], [5, 5, 6, 6]]
    bbox_targets := [⟨3, 1, 2, 3, 4⟩, ⟨0, 0, 0, 0, 0⟩, ⟨2, 5, 6, 7, 8⟩, ⟨0, 0, 0, 0, 0⟩]
    label := [9] }

/-- A concrete record with no foreground and no background candidates: both
overlaps lie below `cfgStd`'s `BG_THRESH_LO`, hence below `FG_THRESH` as
well. -/
def recEmpty : RoiRecord :=
  { max_classes := [4, 6]
    max_overlaps := [0, 0]
    boxes := [[0, 0, 1, 1], [2, 2, 3, 3]]
    bbox_targets := [⟨4, 1, 1, 1, 1⟩, ⟨6, 2, 2, 2, 2⟩]
    label := [5] }

/-! ## Supporting lemmas -/

theorem takeChoice_ok : ChoiceOK takeChoice := by
  intro pool n h
  refine ⟨?_, fun x hx => List.take_subset n pool hx⟩
  simp [takeChoice]
  omega

theorem getD_map_lt {α β : Type} (f : α → β) (l : List α) (i : ℕ) (d : β)
    (d' : α) (h : i < l.length) : (l.map f).getD i d = f (l.getD i d') := by
  rw [List.getD_eq_getElem _ _ (by simpa using h), List.getD_eq_getElem _ _ h]
  simp

theorem getD_replicate_zero (n j : ℕ) {α : Type} [Zero α] :
    (List.replicate n (0 : α)).getD j 0 = 0 := by
  by_cases h : j < n
  · rw [List.getD_eq_getElem _ _ (by simpa using h)]
    simp
  · exact List.getD_eq_default _ _ (by simpa using Nat.le_of_not_lt h)

theorem npWriteBlock_replicate (K c : ℕ) (vals : List ℚ)
    (h : 4 * c + vals.length ≤ 4 * K) :
    npWriteBlock (List.replicate (4 * K) 0) (4 * c) vals =
      List.replicate (4 * c) 0 ++ vals ++
        List.replicate (4 * K - (4 * c + vals.length)) 0 := by
  unfold npWriteBlock
  rw [List.take_replicate, List.drop_replicate,
      Nat.min_eq_left (by omega : 4 * c ≤ 4 * K)]

theorem expandRow_ok (K : ℕ) (row : CompactRow) (h : row.cls > 0 → row.cls < K) :
    expandRow K row = .ok (denseTargetRow K row, denseWeightRow K row) := by
  unfold expandRow denseTargetRow denseWeightRow
  by_cases hc : row.cls > 0
  · have hK : row.cls < (K : ℤ) := h hc
    have hb : 4 * row.cls.toNat + 4 ≤ 4 * K := by omega
    rw [if_pos hc, if_pos (by simpa using hb), if_pos hc, if_pos hc,
        npWriteBlock_replicate K row.cls.toNat _ (by simpa using hb),
        npWriteBlock_replicate K row.cls.toNat _ (by simpa using hb)]
    simp
  · rw [if_neg hc, if_neg hc, if_neg hc]

theorem get_bbox_regression_labels_ok (rows : List CompactRow) (K : ℕ)
    (h : ∀ row ∈ rows, row.cls > 0 → row.cls < K) :
    get_bbox_regression_labels rows K =
      .ok (rows.map (denseTargetRow K), rows.map (denseWeightRow K)) := by
  induction rows with
  | nil => rfl
  | cons r rest ih =>
    rw [get_bbox_regression_labels,
        expandRow_ok K r (h r (List.mem_cons_self r rest)),
        ih (fun row hm => h row (List.mem_cons_of_mem r hm))]
    simp

theorem denseTargetRow_length (K : ℕ) (row : CompactRow)
    (h : row.cls > 0 → row.cls < K) : (denseTargetRow K row).length = 4 * K := by
  unfold denseTargetRow
  by_cases hc : row.cls > 0
  · have hK : row.cls < (K : ℤ) := h hc
    rw [if_pos hc]
    simp
    omega
  · rw [if_neg hc]
    simp

theorem denseWeightRow_length (K : ℕ) (row : CompactRow)
    (h : row.cls > 0 → row.cls < K) : (denseWeightRow K row).length = 4 * K := by
  unfold denseWeightRow
  by_cases hc : row.cls > 0
  · have hK : row.cls < (K : ℤ) := h hc
    rw [if_pos hc]
    simp
    omega
  · rw [if_neg hc]
    simp

theorem denseWeightRow_mem (K : ℕ) (row : CompactRow) :
    ∀ x ∈ denseWeightRow K row, x = 0 ∨ x = 1 := by
  intro x hx
  unfold denseWeightRow at hx
  by_cases hc : row.cls > 0
  · rw [if_pos hc] at hx
    rcases List.mem_append.1 hx with hx' | hx'
    · rcases List.mem_append.1 hx' with hx'' | hx''
      · exact Or.inl (List.eq_of_mem_replicate hx'')
      · simp at hx''
        exact Or.inr hx''
    · exact Or.inl (List.eq_of_mem_replicate hx')
  · rw [if_neg hc] at hx
    exact Or.inl (List.eq_of_mem_replicate hx)

theorem mem_fgInds (cfg : Config) (r : RoiRecord) (i : ℕ) :
    i ∈ fgInds cfg r ↔
      i < r.max_overlaps.length ∧
        cfg.TRAIN_FG_THRESH ≤ r.max_overlaps.getD i 0 := by
  simp [fgInds, List.mem_filter]

theorem mem_bgInds (cfg : Config) (r : RoiRecord) (i : ℕ) :
    i ∈ bgInds cfg r ↔
      i < r.max_overlaps.length ∧
        r.max_overlaps.getD i 0 < cfg.TRAIN_BG_THRESH_HI ∧
        cfg.TRAIN_BG_THRESH_LO ≤ r.max_overlaps.getD i 0 := by
  simp [bgInds, List.mem_filter, and_assoc]

theorem fgSel_length (choice : List ℕ → ℕ → List ℕ) (cfg : Config)
    (r : RoiRecord) (fgQ : ℕ) (hc : ChoiceOK choice) :
    (fgSel choice cfg r fgQ).length = fgNumThisImage cfg r fgQ := by
  unfold fgSel
  by_cases h : 0 < (fgInds cfg r).length
  · rw [if_pos h]
    exact (hc _ _ (Nat.min_le_right _ _)).1
  · rw [if_neg h]
    unfold fgNumThisImage
    omega

theorem bgSel_length (choice : List ℕ → ℕ → List ℕ) (cfg : Config)
    (r : RoiRecord) (fgQ totQ : ℕ) (hc : ChoiceOK choice) :
    (bgSel choice cfg r fgQ totQ).length = bgNumThisImage cfg r fgQ totQ := by
  unfold bgSel
  by_cases h : 0 < (bgInds cfg r).length
  · rw [if_pos h]
    exact (hc _ _ (Nat.min_le_right _ _)).1
  · rw [if_neg h]
    unfold bgNumThisImage
    omega

theorem fgSel_subset (choice : List ℕ → ℕ → List ℕ) (cfg : Config)
    (r : RoiRecord) (fgQ : ℕ) (hc : ChoiceOK choice) :
    ∀ i ∈ fgSel choice cfg r fgQ, i ∈ fgInds cfg r := by
  intro i hi
  unfold fgSel at hi
  by_cases h : 0 < (fgInds cfg r).length
  · rw [if_pos h] at hi
    exact (hc _ _ (Nat.min_le_right _ _)).2 i hi
  · rwa [if_neg h] at hi

theorem bgSel_subset (choice : List ℕ → ℕ → List ℕ) (cfg : Config)
    (r : RoiRecord) (fgQ totQ : ℕ) (hc : ChoiceOK choice) :
    ∀ i ∈ bgSel choice cfg r fgQ totQ, i ∈ bgInds cfg r := by
  intro i hi
  unfold bgSel at hi
  by_cases h : 0 < (bgInds cfg r).length
  · rw [if_pos h] at hi
    exact (hc _ _ (Nat.min_le_right _ _)).2 i hi
  · rwa [if_neg h] at hi

theorem sample_rois_eq (choice : List ℕ → ℕ → List ℕ) (cfg : Config)
    (r : RoiRecord) (fgQ totQ K : ℕ) :
    sample_rois choice cfg r fgQ totQ K =
      (match get_bbox_regression_labels
          (npGather r.bbox_targets (keepInds choice cfg r fgQ totQ) default) K with
       | .ok (t, w) =>
         .ok ⟨npClampFrom (npGather r.max_classes (keepInds choice cfg r fgQ totQ) 0)
                (fgNumThisImage cfg r fgQ),
              npGather r.max_overlaps (keepInds choice cfg r fgQ totQ) 0,
              npGather r.boxes (keepInds choice cfg r fgQ totQ) [],
              t, w⟩
       | .error e => .error e,
       r) := by
  cases hbb : get_bbox_regression_labels
      (npGather r.bbox_targets (keepInds choice cfg r fgQ totQ) default) K with
  | ok tw =>
    cases tw
    simp [sample_rois, hbb]
  | error e =>
    simp [sample_rois, hbb]

theorem npGather_length {α : Type} (xs : List α) (inds : List ℕ) (d : α) :
    (npGather xs inds d).length = inds.length := by
  simp [npGather]

theorem npClampFrom_length (xs : List ℤ) (f : ℕ) :
    (npClampFrom xs f).length = xs.length := by
  simp [npClampFrom]
  omega

theorem npClampFrom_getD_ge (xs : List ℤ) (f j : ℕ) (h : f ≤ j) :
    (npClampFrom xs f).getD j 0 = 0 := by
  unfold npClampFrom
  by_cases h2 : j < xs.length
  · rw [List.getD_append_right _ _ _ _ (by rw [List.length_take]; omega)]
    exact getD_replicate_zero _ _
  · exact List.getD_eq_default _ _
      (by rw [List.length_append, List.length_take, List.length_replicate]; omega)

theorem npClampFrom_getD_lt (xs : List ℤ) (f j : ℕ) (hj : j < f)
    (hl : j < xs.length) :
    (npClampFrom xs f).getD j 0 = xs.getD j 0 := by
  unfold npClampFrom
  rw [List.getD_append _ _ _ _ (by rw [List.length_take]; omega)]
  rw [List.getD_eq_getElem _ _ (by rw [List.length_take]; omega),
      List.getD_eq_getElem _ _ hl]
  simp [List.getElem_take]

theorem getD_mem {α : Type} (l : List α) (n : ℕ) (d : α) (h : n < l.length) :
    l.getD n d ∈ l := by
  rw [List.getD_eq_getElem _ _ h]
  exact l.getElem_mem h

theorem npGather_targets_bounded (r : RoiRecord) (inds : List ℕ) (K : ℕ)
    (h : ∀ row ∈ r.bbox_targets, row.cls > 0 → row.cls < K) :
    ∀ row ∈ npGather r.bbox_targets inds default, row.cls > 0 → row.cls < K := by
  intro row hrow
  unfold npGather at hrow
  rcases List.mem_map.1 hrow with ⟨i, -, rfl⟩
  by_cases hi : i < r.bbox_targets.length
  · exact h _ (getD_mem _ _ _ hi)
  · rw [List.getD_eq_default _ _ (Nat.le_of_not_lt hi)]
    intro hpos
    exact absurd hpos (by decide)

/-- When every compact target row of the record has an in-range class, the
sampler succeeds, and its value is `sampleOk`. -/
theorem sample_rois_ok_of (choice : List ℕ → ℕ → List ℕ) (cfg : Config)
    (r : RoiRecord) (fgQ totQ K : ℕ)
    (h : ∀ row ∈ r.bbox_targets, row.cls > 0 → row.cls < K) :
    (sample_rois choice cfg r fgQ totQ K).1 =
      .ok (sampleOk choice cfg r fgQ totQ K) := by
  unfold sampleOk
  rw [sample_rois_eq,
      get_bbox_regression_labels_ok _ K (npGather_targets_bounded r _ K h)]

/-! ## Claim theorems -/

/-- C1: for every record and quotas, writing `f` for the foreground count
actually taken (`fgNumThisImage`), the returned labels vector has length
`f + |background draw|`, its first `f` entries are `max_classes` values at
foreground-candidate indices (the foreground block comes first), and every
entry at position `f` or beyond is exactly `0`, whatever the original
`max_classes` values were. -/
theorem c1_label_clamp (choice : List ℕ → ℕ → List ℕ) (cfg : Config)
    (r : RoiRecord) (fgQ totQ K : ℕ) (res : SampleResult)
    (hc : ChoiceOK choice)
    (hres : (sample_rois choice cfg r fgQ totQ K).1 = .ok res) :
    res.labels.length =
      fgNumThisImage cfg r fgQ + (bgSel choice cfg r fgQ totQ).length ∧
    (∀ j, fgNumThisImage cfg r fgQ ≤ j → res.labels.getD j 0 = 0) ∧
    (∀ j, j < fgNumThisImage cfg r fgQ →
      ∃ i ∈ fgInds cfg r, res.labels.getD j 0 = r.max_classes.getD i 0) := by
  have hlab : res.labels =
      npClampFrom (npGather r.max_classes (keepInds choice cfg r fgQ totQ) 0)
        (fgNumThisImage cfg r fgQ) := by
    rw [sample_rois_eq] at hres
    cases hbb : get_bbox_regression_labels
        (npGather r.bbox_targets (keepInds choice cfg r fgQ totQ) default) K with
    | ok tw =>
      rw [hbb] at hres
      cases tw
      simp only [Except.ok.injEq] at hres
      rw [← hres]
    | error e =>
      rw [hbb] at hres
      simp at hres
  have hkeep : (keepInds choice cfg r fgQ totQ).length =
      fgNumThisImage cfg r fgQ + (bgSel choice cfg r fgQ totQ).length := by
    unfold keepInds
    rw [List.length_append, fgSel_length choice cfg r fgQ hc]
  refine ⟨?_, ?_, ?_⟩
  · rw [hlab, npClampFrom_length, npGather_length, hkeep]
  · intro j hj
    rw [hlab]
    exact npClampFrom_getD_ge _ _ _ hj
  · intro j hj
    have hjlen : j < (npGather r.max_classes (keepInds choice cfg r fgQ totQ) 0).length := by
      rw [npGather_length, hkeep]
      omega
    rw [hlab, npClampFrom_getD_lt _ _ _ hj hjlen]
    have hjk : j < (keepInds choice cfg r fgQ totQ).length := by
      rw [npGather_length] at hjlen
      exact hjlen
    have hgd : (npGather r.max_classes (keepInds choice cfg r fgQ totQ) 0).getD j 0 =
        r.max_classes.getD ((keepInds choice cfg r fgQ totQ).getD j 0) 0 := by
      unfold npGather
      exact getD_map_lt _ _ _ _ 0 hjk
    have hjfg : j < (fgSel choice cfg r fgQ).length := by
      rw [fgSel_length choice cfg r fgQ hc]
      exact hj
    have hkd : (keepInds choice cfg r fgQ totQ).getD j 0 =
        (fgSel choice cfg r fgQ).getD j 0 := by
      unfold keepInds
      exact List.getD_append _ _ _ _ hjfg
    refine ⟨(fgSel choice cfg r fgQ).getD j 0, ?_, ?_⟩
    · exact fgSel_subset choice cfg r fgQ hc _ (getD_mem _ _ _ hjfg)
    · rw [hgd, hkd]

/-- C1 witness: the theorem instantiated at `takeChoice`, `cfgStd`, `recStd`
with quotas (1, 4); the foreground count taken is 1 and the sampled labels
are `[3, 0, 0]`. -/
theorem c1_label_clamp_witness :
    ((sample_rois takeChoice cfgStd recStd 1 4 8).1 =
      .ok (sampleOk takeChoice cfgStd recStd 1 4 8)) ∧
    ((sampleOk takeChoice cfgStd recStd 1 4 8).labels.length =
      fgNumThisImage cfgStd recStd 1 +
        (bgSel takeChoice cfgStd recStd 1 4).length ∧
    (∀ j, fgNumThisImage cfgStd recStd 1 ≤ j →
      (sampleOk takeChoice cfgStd recStd 1 4 8).labels.getD j 0 = 0) ∧
    (∀ j, j < fgNumThisImage cfgStd recStd 1 →
      ∃ i ∈ fgInds cfgStd recStd,
        (sampleOk takeChoice cfgStd recStd 1 4 8).labels.getD j 0 =
          recStd.max_classes.getD i 0)) :=
  ⟨sample_rois_ok_of takeChoice cfgStd recStd 1 4 8 (by decide),
   c1_label_clamp takeChoice cfgStd recStd 1 4 8
     (sampleOk takeChoice cfgStd recStd 1 4 8) takeChoice_ok
     (sample_rois_ok_of takeChoice cfgStd recStd 1 4 8 (by decide))⟩

/-- C2: the foreground candidate set is exactly the indices whose overlap is
at least `FG_THRESH`; the background candidate set is exactly the indices
whose overlap lies in `[BG_THRESH_LO, BG_THRESH_HI)`; the foreground draw has
size `min(fg_quota, |fg set|)`; the background draw has size
`min(total_quota − |fg draw|, |bg set|)`; and every drawn index belongs to its
candidate set. -/
theorem c2_candidate_sets (choice : List ℕ → ℕ → List ℕ) (cfg : Config)
    (r : RoiRecord) (fgQ totQ : ℕ) (hc : ChoiceOK choice) :
    (∀ i, i ∈ fgInds cfg r ↔
      i < r.max_overlaps.length ∧
        cfg.TRAIN_FG_THRESH ≤ r.max_overlaps.getD i 0) ∧
    (∀ i, i ∈ bgInds cfg r ↔
      i < r.max_overlaps.length ∧
        r.max_overlaps.getD i 0 < cfg.TRAIN_BG_THRESH_HI ∧
        cfg.TRAIN_BG_THRESH_LO ≤ r.max_overlaps.getD i 0) ∧
    (fgSel choice cfg r fgQ).length = min fgQ (fgInds cfg r).length ∧
    (bgSel choice cfg r fgQ totQ).length =
      min (totQ - (fgSel choice cfg r fgQ).length) (bgInds cfg r).length ∧
    (∀ i ∈ fgSel choice cfg r fgQ, i ∈ fgInds cfg r) ∧
    (∀ i ∈ bgSel choice cfg r fgQ totQ, i ∈ bgInds cfg r) := by
  refine ⟨mem_fgInds cfg r, mem_bgInds cfg r, ?_, ?_, fgSel_subset choice cfg r fgQ hc,
          bgSel_subset choice cfg r fgQ totQ hc⟩
  · exact fgSel_length choice cfg r fgQ hc
  · rw [bgSel_length choice cfg r fgQ totQ hc, fgSel_length choice cfg r fgQ hc]
    rfl

/-- C2 witness: at `takeChoice`, `cfgStd`, `recStd` with quotas (1, 4) the
candidate sets are `[0, 2]` and `[1, 3]`, the draws have sizes 1 and 2, and
all drawn indices are candidates. -/
theorem c2_candidate_sets_witness :
    ((∀ i, i ∈ fgInds cfgStd recStd ↔
      i < recStd.max_overlaps.length ∧
        cfgStd.TRAIN_FG_THRESH ≤ recStd.max_overlaps.getD i 0) ∧
    (∀ i, i ∈ bgInds cfgStd recStd ↔
      i < recStd.max_overlaps.length ∧
        recStd.max_overlaps.getD i 0 < cfgStd.TRAIN_BG_THRESH_HI ∧
        cfgStd.TRAIN_BG_THRESH_LO ≤ recStd.max_overlaps.getD i 0) ∧
    (fgSel takeChoice cfgStd recStd 1).length =
      min 1 (fgInds cfgStd recStd).length ∧
    (bgSel takeChoice cfgStd recStd 1 4).length =
      min (4 - (fgSel takeChoice cfgStd recStd 1).length)
        (bgInds cfgStd recStd).length ∧
    (∀ i ∈ fgSel takeChoice cfgStd recStd 1, i ∈ fgInds cfgStd recStd) ∧
    (∀ i ∈ bgSel takeChoice cfgStd recStd 1 4, i ∈ bgInds cfgStd recStd)) :=
  c2_candidate_sets takeChoice cfgStd recStd 1 4 takeChoice_ok

/-- C3 counterexample: at the concrete input `[(class 2, deltas 1 2 3 4)]`
with `num_classes = 2`, the expander does not return a pair of matrices at
all — the block write for class 2 would target columns `[8, 12)` of an
8-column row, and the source raises a numpy broadcasting error there. -/
theorem c3_expander_counterexample :
    get_bbox_regression_labels [⟨2, 1, 2, 3, 4⟩] 2 =
      .error "could not broadcast: bbox block write out of bounds" := by
  rfl

/-- C3 (amended): for every N×5 compact input all of whose rows with class
value `c > 0` satisfy `c < num_classes`, the expander returns an N×4K targets
matrix and an N×4K weights matrix that are zero everywhere except that each
row with class `c > 0` holds its 4 delta values in columns `[4c, 4c+4)` of
targets and ones in the same columns of weights; rows with class value `≤ 0`
are entirely zero in both outputs, and weights take only the values 0 and
1. -/
theorem c3_expander_blocks (rows : List CompactRow) (K : ℕ)
    (h : ∀ row ∈ rows, row.cls > 0 → row.cls < K) :
    ∃ T W, get_bbox_regression_labels rows K = .ok (T, W) ∧
      T.length = rows.length ∧ W.length = rows.length ∧
      (∀ t ∈ T, t.length = 4 * K) ∧ (∀ w ∈ W, w.length = 4 * K) ∧
      (∀ i, i < rows.length →
        ((rows.getD i default).cls > 0 →
          T.getD i [] =
            List.replicate (4 * (rows.getD i default).cls.toNat) 0 ++
              [(rows.getD i default).dx, (rows.getD i default).dy,
               (rows.getD i default).dw, (rows.getD i default).dh] ++
              List.replicate (4 * K - (4 * (rows.getD i default).cls.toNat + 4)) 0 ∧
          W.getD i [] =
            List.replicate (4 * (rows.getD i default).cls.toNat) 0 ++
              [1, 1, 1, 1] ++
              List.replicate (4 * K - (4 * (rows.getD i default).cls.toNat + 4)) 0) ∧
        ((rows.getD i default).cls ≤ 0 →
          T.getD i [] = List.replicate (4 * K) 0 ∧
          W.getD i [] = List.replicate (4 * K) 0)) ∧
      (∀ w ∈ W, ∀ x ∈ w, x = 0 ∨ x = 1) := by
  refine ⟨rows.map (denseTargetRow K), rows.map (denseWeightRow K),
    get_bbox_regression_labels_ok rows K h, by simp, by simp, ?_, ?_, ?_, ?_⟩
  · intro t ht
    rcases List.mem_map.1 ht with ⟨row, hrow, rfl⟩
    exact denseTargetRow_length K row (h row hrow)
  · intro w hw
    rcases List.mem_map.1 hw with ⟨row, hrow, rfl⟩
    exact denseWeightRow_length K row (h row hrow)
  · intro i hi
    have hT : (rows.map (denseTargetRow K)).getD i [] =
        denseTargetRow K (rows.getD i default) := getD_map_lt _ _ _ _ default hi
    have hW : (rows.map (denseWeightRow K)).getD i [] =
        denseWeightRow K (rows.getD i default) := getD_map_lt _ _ _ _ default hi
    constructor
    · intro hpos
      rw [hT, hW]
      unfold denseTargetRow denseWeightRow
      rw [if_pos hpos, if_pos hpos]
      exact ⟨rfl, rfl⟩
    · intro hneg
      rw [hT, hW]
      unfold denseTargetRow denseWeightRow
      rw [if_neg (by omega), if_neg (by omega)]
      exact ⟨rfl, rfl⟩
  · intro w hw
    rcases List.mem_map.1 hw with ⟨row, hrow, rfl⟩
    exact denseWeightRow_mem K row

/-- C3 witness: the amended theorem applied to `recStd`'s compact targets
with `num_classes = 8` (classes 3 and 2 are below 8), yielding a successful
expansion. -/
theorem c3_expander_blocks_witness :
    (∀ row ∈ recStd.bbox_targets, row.cls > 0 → row.cls < (8 : ℕ)) ∧
    ∃ T W, get_bbox_regression_labels recStd.bbox_targets 8 = .ok (T, W) := by
  refine ⟨by decide, ?_⟩
  obtain ⟨T, W, h1, -⟩ := c3_expander_blocks recStd.bbox_targets 8 (by decide)
  exact ⟨T, W, h1⟩

/-- C10: the expander's block write is in-bounds exactly under the unstated
precondition that every class value is an integral `c` with
`0 ≤ c < num_classes` (the embedding's class column is already integral):
under the precondition the expander succeeds, while the concrete row with
class `num_classes + 1 ≥ num_classes` makes the write target columns past the
output's end, which surfaces as the broadcasting error. -/
theorem c10_write_bounds (rows : List CompactRow) (K : ℕ)
    (h : ∀ row ∈ rows, 0 ≤ row.cls ∧ row.cls < K) :
    (∃ TW, get_bbox_regression_labels rows K = .ok TW) ∧
    get_bbox_regression_labels [⟨(K : ℤ) + 1, 1, 2, 3, 4⟩] K =
      .error "could not broadcast: bbox block write out of bounds" := by
  constructor
  · exact ⟨_, get_bbox_regression_labels_ok rows K (fun row hm _ => (h row hm).2)⟩
  · have h1 : ((⟨(K : ℤ) + 1, 1, 2, 3, 4⟩ : CompactRow).cls) > 0 := by
      show (0 : ℤ) < (K : ℤ) + 1
      positivity
    have h2 : ¬ (4 * ((⟨(K : ℤ) + 1, 1, 2, 3, 4⟩ : CompactRow).cls).toNat + 4 ≤ 4 * K) := by
      show ¬ (4 * ((K : ℤ) + 1).toNat + 4 ≤ 4 * K)
      omega
    rw [get_bbox_regression_labels]
    simp only [expandRow]
    rw [if_pos h1, if_neg h2]
    rfl

/-- C10 witness: the theorem applied at one in-bounds row (class 1) with
`num_classes = 2`. -/
theorem c10_write_bounds_witness :
    (∀ row ∈ ([⟨1, 1, 1, 1, 1⟩] : List CompactRow), 0 ≤ row.cls ∧ row.cls < (2 : ℕ)) ∧
    ((∃ TW, get_bbox_regression_labels [⟨1, 1, 1, 1, 1⟩] 2 = .ok TW) ∧
      get_bbox_regression_labels [⟨((2 : ℕ) : ℤ) + 1, 1, 2, 3, 4⟩] 2 =
        .error "could not broadcast: bbox block write out of bounds") :=
  ⟨by decide, c10_write_bounds [⟨1, 1, 1, 1, 1⟩] 2 (by decide)⟩

/-- C4: for every box `[x1, y1, x2, y2]` and image dimensions, with
`w = x2-x1+1`, `h = y2-y1+1`, `r = (w+h)/2`, the generator returns exactly
`left = [max(x1-0.5r, 1), y1, x2-0.5w, y2]`,
`top = [x1, max(y1-0.5h, 1), x2, y2-0.5h]`,
`right = [x1+0.5w, y1, min(x2+0.5r, image_width), y2]`,
`bottom = [x1, y1+0.5h, x2, min(y2+0.5h, image_height)]`; in particular for
`bbox = [10,10,30,40]` in a 100×100 image the left box is
`[1, 10, 19.5, 40]`. -/
theorem c4_context_boxes (x1 y1 x2 y2 im_w im_h : ℚ) :
    get_4_side_bbox [x1, y1, x2, y2] im_w im_h =
      ([max (x1 - (1/2) * ((x2 - x1 + 1 + (y2 - y1 + 1)) / 2)) 1, y1,
        x2 - (1/2) * (x2 - x1 + 1), y2],
       [x1, max (y1 - (1/2) * (y2 - y1 + 1)) 1, x2, y2 - (1/2) * (y2 - y1 + 1)],
       [x1 + (1/2) * (x2 - x1 + 1), y1,
        min (x2 + (1/2) * ((x2 - x1 + 1 + (y2 - y1 + 1)) / 2)) im_w, y2],
       [x1, y1 + (1/2) * (y2 - y1 + 1), x2,
        min (y2 + (1/2) * (y2 - y1 + 1)) im_h]) ∧
    (get_4_side_bbox [10, 10, 30, 40] 100 100).1 = [1, 10, 39/2, 40] := by
  constructor
  · rfl
  · show [max ((10:ℚ) - (1/2) * ((30 - 10 + 1 + (40 - 10 + 1)) / 2)) 1, (10:ℚ),
          (30:ℚ) - (1/2) * (30 - 10 + 1), (40:ℚ)] = [1, 10, 39/2, 40]
    norm_num

/-- C5: when the image count does not divide the configured batch size, the
builder fails with the divisibility error before producing any blobs; when it
divides, the per-image quota is `BATCH_SIZE / num_images` and the foreground
quota is `round(FG_FRACTION * quota)` (numpy round-half-to-even). -/
theorem c5_divisibility_and_quotas (choice : List ℕ → ℕ → List ℕ)
    (cfg : Config) (roidb : List RoiRecord) (K : ℕ) (scales ws hs : List ℚ) :
    (cfg.TRAIN_BATCH_SIZE % roidb.length ≠ 0 →
      get_minibatch choice cfg roidb K scales ws hs =
        .error "num_images must divide BATCH_SIZE") ∧
    (cfg.TRAIN_BATCH_SIZE % roidb.length = 0 →
      rois_per_image cfg roidb.length = cfg.TRAIN_BATCH_SIZE / roidb.length ∧
      fg_rois_per_image cfg roidb.length =
        (npRound (cfg.TRAIN_FG_FRACTION *
          ((cfg.TRAIN_BATCH_SIZE / roidb.length : ℕ) : ℚ))).toNat) := by
  constructor
  · intro h
    simp [get_minibatch, h]
  · exact fun _ => ⟨rfl, rfl⟩

/-- C5 witness: 3 images do not divide `cfgStd`'s batch size 4 and the builder
returns the divisibility error; with 2 images the per-image quota is 4/2 and
the foreground quota is `round(1/4 × 2)`. -/
theorem c5_divisibility_and_quotas_witness :
    get_minibatch takeChoice cfgStd [recStd, recStd, recStd] 8 [] [] [] =
      .error "num_images must divide BATCH_SIZE" ∧
    (rois_per_image cfgStd 2 = cfgStd.TRAIN_BATCH_SIZE / 2 ∧
     fg_rois_per_image cfgStd 2 =
       (npRound (cfgStd.TRAIN_FG_FRACTION *
         ((cfgStd.TRAIN_BATCH_SIZE / 2 : ℕ) : ℚ))).toNat) :=
  ⟨(c5_divisibility_and_quotas takeChoice cfgStd [recStd, recStd, recStd]
      8 [] [] []).1 (by decide),
   (c5_divisibility_and_quotas takeChoice cfgStd [recStd, recStd]
      8 [] [] []).2 (by decide)⟩

/-- C7: the sampler leaves the caller's record untouched: the post-state of
`max_classes`, `max_overlaps`, `boxes` and `bbox_targets` equals the
pre-state, because the advanced-indexing gather copies the arrays and the
in-place label clamp lands on the copy, never on the record's own arrays. -/
theorem c7_record_unchanged (choice : List ℕ → ℕ → List ℕ) (cfg : Config)
    (r : RoiRecord) (fgQ totQ K : ℕ) :
    (sample_rois choice cfg r fgQ totQ K).2.max_classes = r.max_classes ∧
    (sample_rois choice cfg r fgQ totQ K).2.max_overlaps = r.max_overlaps ∧
    (sample_rois choice cfg r fgQ totQ K).2.boxes = r.boxes ∧
    (sample_rois choice cfg r fgQ totQ K).2.bbox_targets = r.bbox_targets := by
  rw [sample_rois_eq]
  exact ⟨rfl, rfl, rfl, rfl⟩

theorem addRois_single (b m : List (List ℚ)) (s : ℚ) (i : ℕ) :
    addRois [b] [m] s i =
      [b ++ (project_im_rois m s).map (fun row => (i : ℚ) :: row)] := rfl

theorem buildLoop_hico (choice : List ℕ → ℕ → List ℕ) (cfg : Config)
    (fgQ totQ K : ℕ) (scales ws hs : List ℚ) (hhico : cfg.FLAG_HICO = true) :
    ∀ (recs : List RoiRecord) (imI : ℕ) (roisA : List (List (List ℚ)))
      (lblsA : List ℤ) (tgtsA lossesA : List (List ℚ)),
    ∃ roisBlob,
      buildLoop choice cfg fgQ totQ K scales ws hs recs imI roisA lblsA
          tgtsA lossesA =
        .ok (roisBlob, lblsA ++ recs.flatMap (fun r => r.label.take 1),
             tgtsA, lossesA) := by
  intro recs
  induction recs with
  | nil =>
    intro imI roisA lblsA tgtsA lossesA
    exact ⟨roisA, by simp [buildLoop]⟩
  | cons r rest ih =>
    intro imI roisA lblsA tgtsA lossesA
    obtain ⟨rb, hrb⟩ := ih (imI + 1)
      (addRois roisA (imageRegions cfg r (ws.getD imI 0) (hs.getD imI 0))
        (scales.getD imI 1) imI)
      (lblsA ++ r.label.take 1) tgtsA lossesA
    refine ⟨rb, ?_⟩
    simp only [buildLoop, perImage, hhico, if_pos, List.append_nil]
    rw [hrb]
    simp

/-- C8: in multi-region mode (with its asserted configuration: bbox
regression disabled, full foreground fraction, batch size = image count) the
builder succeeds and its output dict is exactly `data`, `labels`, and one RoI
tensor per region index — keyed 1-based, with a side suffix from
{l, t, r, b} in context sub-mode — where the labels blob is the concatenation
of each image's scalar label used unmodified; no `bbox_targets` or
`bbox_loss_weights` blob is present. -/
theorem c8_hico_blobs (choice : List ℕ → ℕ → List ℕ) (cfg : Config)
    (roidb : List RoiRecord) (K : ℕ) (scales ws hs : List ℚ)
    (hhico : cfg.FLAG_HICO = true) (hreg : cfg.TRAIN_BBOX_REG = false)
    (hfrac : cfg.TRAIN_FG_FRACTION = 1)
    (hbatch : cfg.TRAIN_BATCH_SIZE = roidb.length) :
    ∃ (roisBlob : List (List (List ℚ))) (blobs : List (BlobKey × Blob)),
      get_minibatch choice cfg roidb K scales ws hs = .ok blobs ∧
      blobs =
        [(BlobKey.data, Blob.image),
         (BlobKey.labels, Blob.vec (roidb.flatMap (fun r => r.label.take 1)))] ++
        (List.range cfg.TOP_K).flatMap (fun ind =>
          if cfg.FEAT_TYPE = 4 then
            (List.range 4).map (fun i =>
              (BlobKey.rois_k_side (ind + 1)
                 ([Side.l, Side.t, Side.r, Side.b].getD i Side.l),
               Blob.mat (roisBlob.getD (ind * 4 + i) [])))
          else
            [(BlobKey.rois_k (ind + 1), Blob.mat (roisBlob.getD ind []))]) ∧
      (∀ b : Blob, (BlobKey.bbox_targets, b) ∉ blobs ∧
        (BlobKey.bbox_loss_weights, b) ∉ blobs) := by
  obtain ⟨rb, hrb⟩ := buildLoop_hico choice cfg
    (fg_rois_per_image cfg roidb.length) (rois_per_image cfg roidb.length) K
    scales ws hs hhico roidb 0
    (List.replicate (if cfg.FEAT_TYPE = 4 then cfg.TOP_K * 4 else cfg.TOP_K) [])
    [] [] []
  refine ⟨rb, namedBlobs cfg rb (roidb.flatMap (fun r => r.label.take 1)),
    ?_, ?_, ?_⟩
  · have hmod : cfg.TRAIN_BATCH_SIZE % roidb.length = 0 := by
      rw [hbatch]
      exact Nat.mod_self _
    simp [get_minibatch, hmod, hhico, hreg, hfrac, hbatch, hrb]
  · simp [namedBlobs, hhico]
  · intro b
    by_cases hf : cfg.FEAT_TYPE = 4 <;>
      constructor <;>
        simp [namedBlobs, hhico, hf, List.mem_append, List.mem_flatMap,
          List.mem_map, List.mem_range]

/-- C8 witness: the theorem applied to `cfgHico` (context sub-mode, 2
regions) and one record; the output exists and carries no regression
blobs. -/
theorem c8_hico_blobs_witness :
    (cfgHico.FLAG_HICO = true ∧ cfgHico.TRAIN_BBOX_REG = false ∧
     cfgHico.TRAIN_FG_FRACTION = 1 ∧
     cfgHico.TRAIN_BATCH_SIZE = [recStd].length) ∧
    ∃ blobs : List (BlobKey × Blob),
      get_minibatch takeChoice cfgHico [recStd] 8 [2] [100] [100] = .ok blobs ∧
      (∀ b : Blob, (BlobKey.bbox_targets, b) ∉ blobs ∧
        (BlobKey.bbox_loss_weights, b) ∉ blobs) := by
  refine ⟨⟨rfl, rfl, rfl, rfl⟩, ?_⟩
  obtain ⟨-, bs, h1, -, h3⟩ :=
    c8_hico_blobs takeChoice cfgHico [recStd] 8 [2] [100] [100] rfl rfl rfl rfl
  exact ⟨bs, h1, h3⟩

theorem buildLoop_standard (choice : List ℕ → ℕ → List ℕ) (cfg : Config)
    (fgQ totQ K : ℕ) (scales ws hs : List ℚ)
    (hhico : cfg.FLAG_HICO = false) (htop : cfg.TOP_K = 1)
    (hfeat : cfg.FEAT_TYPE = 0) :
    ∀ recs : List RoiRecord,
    (∀ r ∈ recs, ∃ s, (sample_rois choice cfg r fgQ totQ K).1 = .ok s) →
    ∀ (imI : ℕ) (b : List (List ℚ)) (lblsA : List ℤ)
      (tgtsA lossesA : List (List ℚ)),
    buildLoop choice cfg fgQ totQ K scales ws hs recs imI [b] lblsA
        tgtsA lossesA =
      .ok ([b ++ (recs.enumFrom imI).flatMap (fun p =>
              (project_im_rois (sampleOk choice cfg p.2 fgQ totQ K).rois
                 (scales.getD p.1 1)).map (fun row => (p.1 : ℚ) :: row))],
           lblsA ++ recs.flatMap
             (fun r => (sampleOk choice cfg r fgQ totQ K).labels),
           tgtsA ++ recs.flatMap
             (fun r => (sampleOk choice cfg r fgQ totQ K).bbox_targets),
           lossesA ++ recs.flatMap
             (fun r => (sampleOk choice cfg r fgQ totQ K).bbox_loss_weights)) := by
  intro recs
  induction recs with
  | nil =>
    intro _ imI b lblsA tgtsA lossesA
    simp [buildLoop]
  | cons r rest ih =>
    intro hok imI b lblsA tgtsA lossesA
    obtain ⟨s, hs'⟩ := hok r (List.mem_cons_self r rest)
    have hsOk : (sample_rois choice cfg r fgQ totQ K).1 =
        .ok (sampleOk choice cfg r fgQ totQ K) := by
      unfold sampleOk
      rw [hs']
    have ihh := ih (fun x hx => hok x (List.mem_cons_of_mem r hx)) (imI + 1)
      (b ++ (project_im_rois (sampleOk choice cfg r fgQ totQ K).rois
         (scales.getD imI 1)).map (fun row => (imI : ℚ) :: row))
      (lblsA ++ (sampleOk choice cfg r fgQ totQ K).labels)
      (tgtsA ++ (sampleOk choice cfg r fgQ totQ K).bbox_targets)
      (lossesA ++ (sampleOk choice cfg r fgQ totQ K).bbox_loss_weights)
    simp [List.append_assoc] at ihh
    simp [buildLoop, perImage, hhico, htop, hfeat, hsOk, addRois_single, ihh,
      List.append_assoc]

/-- C6: when both candidate sets of a record are empty the sampler returns
`.ok` with zero-row arrays everywhere rather than an error, and the Minibatch
Builder (standard mode, here on the one-image roidb, which always satisfies
the divisibility precondition) accepts this reduced contribution and
succeeds. -/
theorem c6_empty_candidates (choice : List ℕ → ℕ → List ℕ) (cfg : Config)
    (r : RoiRecord) (fgQ totQ K : ℕ) (scales ws hs : List ℚ)
    (hfg : fgInds cfg r = []) (hbg : bgInds cfg r = [])
    (hhico : cfg.FLAG_HICO = false) (htop : cfg.TOP_K = 1)
    (hfeat : cfg.FEAT_TYPE = 0) :
    (sample_rois choice cfg r fgQ totQ K).1 = .ok ⟨[], [], [], [], []⟩ ∧
    ∃ blobs : List (BlobKey × Blob),
      get_minibatch choice cfg [r] K scales ws hs = .ok blobs ∧
      (BlobKey.labels, Blob.vec []) ∈ blobs := by
  have hempty : ∀ fq tq, (sample_rois choice cfg r fq tq K).1 =
      .ok ⟨[], [], [], [], []⟩ := by
    intro fq tq
    have hkeep : keepInds choice cfg r fq tq = [] := by
      simp [keepInds, fgSel, bgSel, hfg, hbg]
    rw [sample_rois_eq, hkeep]
    simp [npGather, npClampFrom, get_bbox_regression_labels]
  refine ⟨hempty fgQ totQ, ?_⟩
  have hloop := buildLoop_standard choice cfg (fg_rois_per_image cfg 1)
    (rois_per_image cfg 1) K scales ws hs hhico htop hfeat [r]
    (fun x hx => by
      rw [List.mem_singleton] at hx
      rw [hx]
      exact ⟨_, hempty _ _⟩)
    0 [] [] [] []
  have hso : sampleOk choice cfg r (fg_rois_per_image cfg 1)
      (rois_per_image cfg 1) K = ⟨[], [], [], [], []⟩ := by
    unfold sampleOk
    rw [hempty]
  simp [hso, project_im_rois] at hloop
  cases hbr : cfg.TRAIN_BBOX_REG with
  | false =>
    refine ⟨[(BlobKey.data, Blob.image), (BlobKey.rois, Blob.mat []),
             (BlobKey.labels, Blob.vec [])], ?_, by simp⟩
    simp [get_minibatch, hhico, htop, hfeat, hbr, hloop, namedBlobs,
      Nat.mod_one]
  | true =>
    refine ⟨[(BlobKey.data, Blob.image), (BlobKey.rois, Blob.mat []),
             (BlobKey.labels, Blob.vec []),
             (BlobKey.bbox_targets, Blob.mat []),
             (BlobKey.bbox_loss_weights, Blob.mat [])], ?_, by simp⟩
    simp [get_minibatch, hhico, htop, hfeat, hbr, hloop, namedBlobs,
      Nat.mod_one]

/-- C6 witness: the theorem at `cfgStd` and `recEmpty` (no candidate in
either band): the sampler returns the all-empty tuple and the builder
succeeds with an empty labels blob. -/
theorem c6_empty_candidates_witness :
    (fgInds cfgStd recEmpty = [] ∧ bgInds cfgStd recEmpty = [] ∧
     cfgStd.FLAG_HICO = false ∧ cfgStd.TOP_K = 1 ∧ cfgStd.FEAT_TYPE = 0) ∧
    ((sample_rois takeChoice cfgStd recEmpty 1 4 8).1 =
      .ok ⟨[], [], [], [], []⟩ ∧
    ∃ blobs : List (BlobKey × Blob),
      get_minibatch takeChoice cfgStd [recEmpty] 8 [2] [100] [100] =
        .ok blobs ∧
      (BlobKey.labels, Blob.vec []) ∈ blobs) :=
  ⟨⟨by decide, by decide, rfl, rfl, rfl⟩,
   c6_empty_candidates takeChoice cfgStd recEmpty 1 4 8 [2] [100] [100]
     (by decide) (by decide) rfl rfl rfl⟩

/-- C9: the projector multiplies every coordinate by the scale — shapes are
preserved and no clamping occurs (it is a pure function of its arguments, so
it is deterministic and leaves its input untouched); and in the standard-mode
assembly each image's projected RoI rows are prefixed with the image's batch
index and row-stacked in image order, with labels, regression targets, and
loss weights concatenated in the same image order. -/
theorem c9_projection_and_assembly (choice : List ℕ → ℕ → List ℕ)
    (cfg : Config) (roidb : List RoiRecord) (K : ℕ) (scales ws hs : List ℚ)
    (hhico : cfg.FLAG_HICO = false) (htop : cfg.TOP_K = 1)
    (hfeat : cfg.FEAT_TYPE = 0)
    (hdiv : cfg.TRAIN_BATCH_SIZE % roidb.length = 0)
    (hok : ∀ r ∈ roidb, ∃ s,
      (sample_rois choice cfg r (fg_rois_per_image cfg roidb.length)
        (rois_per_image cfg roidb.length) K).1 = .ok s) :
    (∀ (rois : List (List ℚ)) (s : ℚ),
      (project_im_rois rois s).length = rois.length ∧
      ∀ i, i < rois.length →
        ((project_im_rois rois s).getD i []).length = (rois.getD i []).length ∧
        ∀ j, j < (rois.getD i []).length →
          ((project_im_rois rois s).getD i []).getD j 0 =
            (rois.getD i []).getD j 0 * s) ∧
    get_minibatch choice cfg roidb K scales ws hs =
      .ok ([(BlobKey.data, Blob.image),
            (BlobKey.rois, Blob.mat ((roidb.enumFrom 0).flatMap (fun p =>
              (project_im_rois
                 (sampleOk choice cfg p.2 (fg_rois_per_image cfg roidb.length)
                   (rois_per_image cfg roidb.length) K).rois
                 (scales.getD p.1 1)).map (fun row => (p.1 : ℚ) :: row)))),
            (BlobKey.labels, Blob.vec (roidb.flatMap (fun r =>
              (sampleOk choice cfg r (fg_rois_per_image cfg roidb.length)
                (rois_per_image cfg roidb.length) K).labels)))] ++
           (if cfg.TRAIN_BBOX_REG then
              [(BlobKey.bbox_targets, Blob.mat (roidb.flatMap (fun r =>
                 (sampleOk choice cfg r (fg_rois_per_image cfg roidb.length)
                   (rois_per_image cfg roidb.length) K).bbox_targets))),
               (BlobKey.bbox_loss_weights, Blob.mat (roidb.flatMap (fun r =>
                 (sampleOk choice cfg r (fg_rois_per_image cfg roidb.length)
                   (rois_per_image cfg roidb.length) K).bbox_loss_weights)))]
            else [])) := by
  constructor
  · intro rois s
    refine ⟨by simp [project_im_rois], fun i hi => ?_⟩
    have hrow : (project_im_rois rois s).getD i [] =
        (rois.getD i []).map (fun c => c * s) := by
      unfold project_im_rois
      rw [getD_map_lt (fun row => row.map (fun c => c * s)) rois i _ [] hi]
    refine ⟨by rw [hrow]; simp, fun j hj => ?_⟩
    rw [hrow, getD_map_lt (fun c => c * s) _ j _ 0 hj]
  · have hloop := buildLoop_standard choice cfg
      (fg_rois_per_image cfg roidb.length) (rois_per_image cfg roidb.length) K
      scales ws hs hhico htop hfeat roidb hok 0 [] [] [] []
    simp [List.append_assoc] at hloop
    cases hbr : cfg.TRAIN_BBOX_REG with
    | false =>
      simp [get_minibatch, hdiv, hhico, htop, hfeat, hbr, hloop, namedBlobs]
    | true =>
      simp [get_minibatch, hdiv, hhico, htop, hfeat, hbr, hloop, namedBlobs]

/-- C9 witness: the theorem at `cfgStd` with two records (batch size 4 is
divisible by 2 images; both samples succeed since all compact-target classes
are below `num_classes = 8`). -/
theorem c9_projection_and_assembly_witness :
    (cfgStd.FLAG_HICO = false ∧ cfgStd.TOP_K = 1 ∧ cfgStd.FEAT_TYPE = 0 ∧
     cfgStd.TRAIN_BATCH_SIZE % [recStd, recEmpty].length = 0 ∧
     (∀ r ∈ [recStd, recEmpty], ∃ s,
       (sample_rois takeChoice cfgStd r
         (fg_rois_per_image cfgStd [recStd, recEmpty].length)
         (rois_per_image cfgStd [recStd, recEmpty].length) 8).1 = .ok s)) ∧
    ((∀ (rois : List (List ℚ)) (s : ℚ),
      (project_im_rois rois s).length = rois.length) ∧
    ∃ blobs : List (BlobKey × Blob),
      get_minibatch takeChoice cfgStd [recStd, recEmpty] 8 [2, 3] [100, 50]
        [100, 50] = .ok blobs) := by
  have hok : ∀ r ∈ [recStd, recEmpty], ∃ s,
      (sample_rois takeChoice cfgStd r
        (fg_rois_per_image cfgStd [recStd, recEmpty].length)
        (rois_per_image cfgStd [recStd, recEmpty].length) 8).1 = .ok s := by
    intro r hr
    rcases List.mem_cons.1 hr with h | h
    · exact ⟨_, h ▸ sample_rois_ok_of takeChoice cfgStd recStd _ _ 8 (by decide)⟩
    · rw [List.mem_singleton] at h
      exact ⟨_, h ▸ sample_rois_ok_of takeChoice cfgStd recEmpty _ _ 8 (by decide)⟩
  have h := c9_projection_and_assembly takeChoice cfgStd [recStd, recEmpty] 8
    [2, 3] [100, 50] [100, 50] rfl rfl rfl (by decide) hok
  exact ⟨⟨rfl, rfl, rfl, by decide, hok⟩,
    ⟨fun rois s => (h.1 rois s).1, ⟨_, h.2⟩⟩⟩

end Minibatch
